import Mathlib

/-!
# Verification of the Echo event-chain / session subsystem

Shallow embedding of the core logic of the `Echo` repository
(`Event_builder.py`, `event_loop_tool.py`, `daily_loop_tool.py`,
`database.py`, `Api.py`).  Python strings are modelled as `List Char`,
dicts with optional keys as structures with `Option` fields, database
tables as association lists, and the LLM client as a scripted stream of
already-parsed responses (one entry consumed per API call; `none` models
a raised exception or an unparseable reply).  Wall-clock time and the
network are kept outside the model: functions take the values the Python
code derives from them as explicit arguments.
-/

namespace Echo

/-- Python `str`, modelled as its list of characters. -/
abbrev Str := List Char

/-- The characters of a Lean string literal (used to write the constant
Chinese/ASCII strings of the source). -/
def strLit (s : String) : Str := s.data

/-- `isPrefixL n h` : `n` is a prefix of `h` (helper for substring scan). -/
def isPrefixL : Str → Str → Bool
  | [], _ => true
  | _ :: _, [] => false
  | a :: as, b :: bs => a == b && isPrefixL as bs

/-- Python's `needle in hay` substring containment on `str`. -/
def occursIn (needle : Str) : Str → Bool
  | [] => needle.isEmpty
  | c :: rest => isPrefixL needle (c :: rest) || occursIn needle rest

theorem isPrefixL_iff (n h : Str) : isPrefixL n h = true ↔ ∃ t, h = n ++ t := by
  induction n generalizing h with
  | nil => simp [isPrefixL]
  | cons a as ih =>
    cases h with
    | nil => simp [isPrefixL]
    | cons b bs =>
      simp only [isPrefixL, Bool.and_eq_true, beq_iff_eq, ih]
      constructor
      · rintro ⟨rfl, t, rfl⟩; exact ⟨t, rfl⟩
      · rintro ⟨t, ht⟩
        injection ht with h1 h2
        exact ⟨h1.symm, t, h2⟩

theorem occursIn_iff (n h : Str) : occursIn n h = true ↔ ∃ p t, h = p ++ n ++ t := by
  induction h with
  | nil =>
    simp only [occursIn, List.isEmpty_iff]
    constructor
    · rintro rfl; exact ⟨[], [], rfl⟩
    · rintro ⟨p, t, ht⟩
      rcases List.append_eq_nil.mp (List.append_eq_nil.mp ht.symm).1 with ⟨_, h2⟩
      exact h2
  | cons c rest ih =>
    simp only [occursIn, Bool.or_eq_true, isPrefixL_iff, ih]
    constructor
    · rintro (⟨t, ht⟩ | ⟨p, t, ht⟩)
      · exact ⟨[], t, by simp [ht]⟩
      · exact ⟨c :: p, t, by simp [ht]⟩
    · rintro ⟨p, t, ht⟩
      cases p with
      | nil => exact Or.inl ⟨t, by simpa using ht⟩
      | cons x xs =>
        right
        injection ht with h1 h2
        exact ⟨xs, t, h2⟩

/-- Substring containment is transitive (needed to relate the full
termination markers to the bare words the code scans for). -/
theorem occursIn_trans {a b c : Str} (hab : occursIn a b = true)
    (hbc : occursIn b c = true) : occursIn a c = true := by
  rcases (occursIn_iff a b).mp hab with ⟨p, t, rfl⟩
  rcases (occursIn_iff _ c).mp hbc with ⟨q, r, rfl⟩
  exact (occursIn_iff a _).mpr ⟨q ++ p, t ++ r, by simp⟩

/-! ## Decimal digits, `int(...)` parsing and `f"E{n:03d}"` formatting -/

/-- The value of a decimal digit character (`'0'` ↦ 0, …). -/
def charVal (c : Char) : Nat := c.toNat - '0'.toNat

/-- Python `int(s)` on a string of decimal digits. -/
def parseNatDigits (s : Str) : Nat := s.foldl (fun a c => 10 * a + charVal c) 0

/-- The decimal digit character for `d ≤ 9`. -/
def decChar (d : Nat) : Char :=
  match d with
  | 0 => '0' | 1 => '1' | 2 => '2' | 3 => '3' | 4 => '4'
  | 5 => '5' | 6 => '6' | 7 => '7' | 8 => '8' | _ => '9'

/-- Little-endian decimal digits of `n` (fuel-based so it evaluates in the
kernel). -/
def decDigitsCore : Nat → Nat → Str
  | 0, _ => []
  | _ + 1, 0 => []
  | fuel + 1, n + 1 => decChar ((n + 1) % 10) :: decDigitsCore fuel ((n + 1) / 10)

/-- Big-endian decimal representation of `n` (Python `str(n)` / `"{:d}"`). -/
def decDigits (n : Nat) : Str :=
  if n = 0 then ['0'] else (decDigitsCore n n).reverse

/-- Zero-pad a digit string to width ≥ 3 (Python `"{:03d}"` padding). -/
def pad3 (s : Str) : Str := List.replicate (3 - s.length) '0' ++ s

/-- `Event_builder.py:193` — `f"E{last_num:03d}"`. -/
def formatEventId (n : Nat) : Str := 'E' :: pad3 (decDigits n)

theorem charVal_decChar : ∀ d < 10, charVal (decChar d) = d := by decide

/-- Value of a little-endian digit list. -/
def valLE (s : Str) : Nat := s.foldr (fun c r => charVal c + 10 * r) 0

theorem valLE_decDigitsCore : ∀ fuel n, n ≤ fuel → valLE (decDigitsCore fuel n) = n := by
  intro fuel
  induction fuel with
  | zero => intro n hn; interval_cases n; rfl
  | succ f ih =>
    intro n hn
    match n with
    | 0 => rfl
    | m + 1 =>
      have hdiv : (m + 1) / 10 ≤ f := by
        have h1 : (m + 1) / 10 < m + 1 := Nat.div_lt_self (Nat.succ_pos m) (by norm_num)
        omega
      simp only [decDigitsCore, valLE, List.foldr]
      have hmod := charVal_decChar ((m + 1) % 10) (Nat.mod_lt _ (by norm_num))
      have := ih ((m + 1) / 10) hdiv
      simp only [valLE] at this
      rw [hmod, this]
      omega

theorem parseNatDigits_reverse (l : Str) :
    parseNatDigits l.reverse = valLE l := by
  induction l with
  | nil => rfl
  | cons c cs ih =>
    simp only [parseNatDigits, List.reverse_cons, List.foldl_append, List.foldl_cons,
      List.foldl_nil, valLE, List.foldr] at *
    rw [ih]
    ring

/-- `str(n)` parses back to `n`. -/
theorem parseNatDigits_decDigits (n : Nat) : parseNatDigits (decDigits n) = n := by
  by_cases h : n = 0
  · subst h; rfl
  · simp only [decDigits, if_neg h]
    rw [parseNatDigits_reverse]
    exact valLE_decDigitsCore n n le_rfl

/-- Leading zeros do not change the parsed value. -/
theorem parseNatDigits_pad3 (s : Str) : parseNatDigits (pad3 s) = parseNatDigits s := by
  have : ∀ k, parseNatDigits (List.replicate k '0' ++ s) = parseNatDigits s := by
    intro k
    induction k with
    | zero => rfl
    | succ m ih =>
      simpa [parseNatDigits, List.replicate_succ, charVal] using ih
  exact this _

/-- Round trip for the generator's id encoding: `int(formatEventId n [1:]) = n`.
This is what lets the running `last_event_id` string survive stage
boundaries without resetting. -/
theorem parse_formatEventId (n : Nat) :
    parseNatDigits ((formatEventId n).drop 1) = n := by
  simp only [formatEventId, List.drop_succ_cons, List.drop_zero]
  rw [parseNatDigits_pad3, parseNatDigits_decDigits]

/-! ## Data model of the Event Chain Generator (`Event_builder.py`)

A generated event is a Python dict; only the keys the control flow reads
are modelled, each as an `Option` (`none` = key absent). -/

/-- One narrative event dict. -/
structure PyEvent where
  event_id : Option Str
  name : Option Str
  status : Option Str
deriving DecidableEq

/-- One stage dict `{"阶段": …, "时间范围": …, "事件列表": […]}` as appended to
`full_event_tree`.  `stage`/`timeRange` are `Option` because downstream
code reads them with `.get`. -/
structure StageEvents where
  stage : Option Str
  timeRange : Option Str
  events : List PyEvent
deriving DecidableEq

/-- A lifecycle-stage descriptor (`generate_lifecycle_stages` output item,
validated to carry the keys `阶段` and `时间范围`). -/
structure LifeStage where
  stage : Str
  timeRange : Str
deriving DecidableEq

/-- All event ids appearing in a tree, as numbers (`int(id[1:])`). -/
def treeIdNums (tree : List StageEvents) : List Nat :=
  (tree.map (fun st => st.events.filterMap
    (fun e => e.event_id.map (fun i => parseNatDigits (i.drop 1))))).flatten

/-- `[s, s+1, …, s+n-1]` — a contiguous block of `n` ids starting at `s`. -/
def natRangeFrom (s : Nat) : Nat → List Nat
  | 0 => []
  | k + 1 => s :: natRangeFrom (s + 1) k

/-- The spec's invariant `E001..E0NN`: sorted, the id numbers are exactly
`1, 2, …, N` with no duplicates and no gaps. -/
def contiguousFromOne (l : List Nat) : Bool :=
  List.insertionSort (· ≤ ·) l == natRangeFrom 1 l.length

/-! ## `EventTreeGenerator._assign_event_ids` (lines 188–194) -/

/-- The body of the `for` loop: each event gets `E{last_num:03d}` with the
counter pre-incremented. -/
def assignIdsFrom (n : Nat) : List PyEvent → List PyEvent
  | [] => []
  | e :: es => { e with event_id := some (formatEventId (n + 1)) } :: assignIdsFrom (n + 1) es

/-- `_assign_event_ids`: parses the numeric part of `self.last_event_id`,
assigns consecutive ids, and leaves `last_event_id` at the last id
assigned (unchanged when the list is empty). -/
def assignEventIds (lastId : Str) (events : List PyEvent) : List PyEvent × Str :=
  let n := parseNatDigits (lastId.drop 1)
  (assignIdsFrom n events,
   if events.isEmpty then lastId else formatEventId (n + events.length))

/-- `_get_next_event_id` (lines 272–275). -/
def getNextEventId (lastId : Str) : Str :=
  formatEventId (parseNatDigits (lastId.drop 1) + 1)

/-! ## `generate_next_stage_events` (lines 48–186)

One scripted API attempt is `none` when the call raised or no JSON object
with an `事件列表` key could be recovered, and `some ed` when a stage dict
was parsed. -/

/-- A scripted outcome of one `call_api` + JSON-extraction attempt. -/
abbrev Attempt := Option StageEvents

/-- Structural validation (lines 124–139): the parsed dict must hold a
non-empty `事件列表`; events missing `event_id` or `name` are dropped, and
the result is only valid when at least one event survives. -/
def validateStageEvents : Attempt → Option StageEvents
  | none => none
  | some ed =>
    let valid := ed.events.filter (fun e => e.event_id.isSome && e.name.isSome)
    if 0 < valid.length then some { ed with events := valid } else none

/-- Line 153–154: default `status` to `未完成` when absent (the `issue_id`
side call is an external collaborator and is not modelled). -/
def defaultStatus (e : PyEvent) : PyEvent :=
  { e with status := some (e.status.getD (strLit "未完成")) }

/-- Lines 144–173 applied to a validated stage: the
`needs_id_assignment` check (line 147) runs `_assign_event_ids` only when
some validated event still lacks an `event_id`; then statuses are
defaulted and the stage is appended. -/
def processStageEvents (lastId : Str) (ed : StageEvents) : StageEvents × Str :=
  let needsAssign := ed.events.any (fun e => e.event_id.isNone)
  let (evs, last') := if needsAssign then assignEventIds lastId ed.events
                      else (ed.events, lastId)
  ({ ed with events := evs.map defaultStatus }, last')

/-- The `for attempt in range(max_retries)` loop (lines 86–186): invalid
attempts are retried, a valid one is processed, appended to the tree and
returned; exhaustion returns `[]` with the tree untouched. -/
def genNextStageLoop (lastId : Str) (tree : List StageEvents) :
    List Attempt → List PyEvent × List StageEvents × Str
  | [] => ([], tree, lastId)
  | a :: rest =>
    match validateStageEvents a with
    | some ed =>
      let (ed', last') := processStageEvents lastId ed
      (ed'.events, tree ++ [ed'], last')
    | none => genNextStageLoop lastId tree rest

/-- `generate_next_stage_events`: guard clauses (lines 51–64; `stages`
models `self.stages` after the lazy `generate_lifecycle_stages` fill-in),
then at most `max_retries = 3` attempts.  The final-stage flag (lines
67–69) only changes prompt text and is not modelled. -/
def generateNextStageEvents (stages : List LifeStage) (lastId : Str)
    (tree : List StageEvents) (stream : List Attempt) :
    List PyEvent × List StageEvents × Str :=
  if stages.isEmpty then ([], tree, lastId)
  else if stages.length ≤ tree.length then ([], tree, lastId)
  else genNextStageLoop lastId tree (stream.take 3)

/-! ## `generate_lifecycle_stages` (lines 361–415) -/

/-- One scripted outcome of the single `call_api` made by
`generate_lifecycle_stages`. -/
inductive LifecycleResp where
  /-- the API call or JSON decoding raised (outer `except`, line 413) -/
  | raised : LifecycleResp
  /-- no bracketed JSON array found, or an element without `阶段` /
  `时间范围` (all the `return []` branches) -/
  | badStructure : LifecycleResp
  /-- a well-formed list of stage dicts -/
  | good : List LifeStage → LifecycleResp
deriving DecidableEq

def parseLifecycleResp : LifecycleResp → List LifeStage
  | .raised => []
  | .badStructure => []
  | .good s => s

/-- `generate_lifecycle_stages` makes exactly one API call: only the head
of the response stream is consumed; every failure path returns `[]`. -/
def generateLifecycleStages : List LifecycleResp → List LifeStage
  | [] => []
  | r :: _ => parseLifecycleResp r

/-! ## `generate_initial_event` (lines 30–46) -/

/-- One scripted outcome of the single `call_api` made by
`generate_initial_event`. -/
inductive InitialResp where
  /-- the API call or `json.loads` raised: the `except` branch returns
  the empty dict `{}` (line 46) -/
  | raised : InitialResp
  /-- no `{`…`}` pair found in the reply (line 38): the `try` block falls
  through and the function implicitly returns `None` -/
  | noJson : InitialResp
  /-- a parsed event-data dict -/
  | good : StageEvents → InitialResp
deriving DecidableEq

/-- `generate_initial_event` makes exactly one API call — only the head
of the response stream is consumed, there is no retry loop.  On success
the parsed dict is appended to `full_event_tree` and `last_event_id` is
set to `E001` (the `_save_event_tree` upsert is modelled in
`generateAndSave`); on any failure it returns an empty result (`{}` or
`None`, both modelled as `none`) with the generator state untouched. -/
def generateInitialEvent (tree : List StageEvents) (lastId : Str) :
    List InitialResp → Option StageEvents × List StageEvents × Str
  | [] => (none, tree, lastId)
  | r :: _ =>
    match r with
    | .raised => (none, tree, lastId)
    | .noJson => (none, tree, lastId)
    | .good ed => (some ed, tree ++ [ed], strLit "E001")

/-! ## `generate_initial_event_only` (lines 664–756) -/

/-- The retry loop of `generate_initial_event_only`: on a parsed dict it
defaults statuses, forces `event_id = "E001"` on *every* event (line 707),
keeps the events whose id is `E001` (line 713, i.e. all of them), and
succeeds when at least one event is present; otherwise it retries. -/
def genInitialOnlyLoop : List Attempt → Option StageEvents
  | [] => none
  | a :: rest =>
    match a with
    | none => genInitialOnlyLoop rest
    | some ed =>
      let evs := ed.events.map
        (fun e => { defaultStatus e with event_id := some (strLit "E001") })
      if 0 < evs.length then
        some { ed with events := evs.filter (fun e => e.event_id == some (strLit "E001")) }
      else genInitialOnlyLoop rest

/-- `generate_initial_event_only`: needs lifecycle stages (it only uses
`stages[0]` for the prompt), then up to 3 attempts; `none` models the
falsy `{}` returned on failure.  The database save it performs on success
is modelled in `generateAndSave`. -/
def generateInitialEventOnly (stages : List LifeStage) (stream : List Attempt) :
    Option StageEvents :=
  if stages.isEmpty then none else genInitialOnlyLoop (stream.take 3)

/-! ## The `agent_event_chains` store and `generate_and_save` (lines 891–927) -/

/-- The persisted chain document `{"version": "1.0", "event_tree": […]}`. -/
structure Chain where
  event_tree : List StageEvents
deriving DecidableEq

/-- The `agent_event_chains` table: latest chain row per agent id. -/
abbrev ChainStore := List (Nat × Chain)

/-- `SELECT chain_json … WHERE agent_id = %s ORDER BY updated_at DESC LIMIT 1`. -/
def lookupChain (s : ChainStore) (aid : Nat) : Option Chain :=
  (s.find? (fun p => p.1 == aid)).map (fun p => p.2)

/-- `_save_event_tree` (lines 283–312): `UPDATE … WHERE agent_id`, and an
`INSERT` only when no row was updated — an upsert keyed by agent id. -/
def upsertChain (s : ChainStore) (aid : Nat) (c : Chain) : ChainStore :=
  if s.any (fun p => p.1 == aid)
  then s.map (fun p => if p.1 == aid then (p.1, c) else p)
  else s ++ [(aid, c)]

/-- `generate_and_save`: reuse the stored chain when one exists (returning
it unchanged, no write); otherwise generate the initial event (which
itself upserts, lines 716–739) and upsert again via `_save_event_tree`
(line 926).  The update of `self.last_event_id` on the reuse path does
not touch the store. -/
def generateAndSave (aid : Nat) (store : ChainStore) (stages : List LifeStage)
    (stream : List Attempt) : List StageEvents × ChainStore :=
  match lookupChain store aid with
  | some c => (c.event_tree, store)
  | none =>
    match generateInitialEventOnly stages stream with
    | some ev =>
      let s1 := upsertChain store aid ⟨[ev]⟩
      ([ev], upsertChain s1 aid ⟨[ev]⟩)
    | none => ([], upsertChain store aid ⟨[]⟩)

/-! ## Event Loop Engine (`event_loop_tool.py`) -/

/-- The reserved literal substrings of the system prompt
(`event_loop_tool.py:447-451`) and the strings scanned by lines 493–499. -/
def endMark : Str := strLit "事件结束"

def succWord : Str := strLit "成功"

def failWord : Str := strLit "失败"

def inProgress : Str := strLit "进行中"

def succMarker : Str := strLit "【事件结束：成功】"

def failMarker : Str := strLit "【事件结束：失败】"

/-- Lines 474–499 of `run_event_loop`: `event_status` starts `进行中` and
`is_ended` starts `False`; when `"事件结束" in agent_reply`, the call is
ended, with status `成功` if `"成功" in agent_reply`, `elif "失败"`, else
left `进行中`. -/
def classifyReply (reply : Str) : Str × Bool :=
  if occursIn endMark reply then
    (if occursIn succWord reply then succWord
     else if occursIn failWord reply then failWord
     else inProgress, true)
  else (inProgress, false)

/-- A dialog message `{role, content}` (the `issue_id`/`timestamp` keys
carry no control flow). -/
structure DialogMsg where
  role : Str
  content : Str
deriving DecidableEq

/-- The in-memory event-session state (`session_data` of
`run_event_loop`). -/
structure EventSession where
  current_event_id : Str
  event_tree : List StageEvents
  dialog_history : List DialogMsg
  event_status : Str
deriving DecidableEq

/-- Stage name lookup `stage.get("阶段", f"阶段{idx + 1}")`. -/
def stageNameAt (i : Nat) (s : StageEvents) : Str :=
  s.stage.getD (strLit "阶段" ++ decDigits (i + 1))

/-- One entry of the `event_details` list built by
`get_next_event_from_chain` (lines 73–86); only the keys that steer the
lookup are kept. -/
structure EventDetail where
  stageName : Str
  eventIndex : Nat
deriving DecidableEq

def eventDetails (chain : List StageEvents) : List EventDetail :=
  (chain.enum.map (fun p =>
    (List.range p.2.events.length).map (fun j => ⟨stageNameAt p.1 p.2, j⟩))).flatten

/-- `get_next_event_from_chain` (lines 57–136).  `selIdx` is the result of
`int(content)` on the selector LLM's reply; `none` models the exception
path (unparseable reply or failed call), which returns `None`.  An
in-range index is resolved by re-finding the first stage with the
recorded stage name and bounds-checking the recorded event index —
returning at most one event. -/
def chooseNextEvent (chain : List StageEvents) (selIdx : Option Int) :
    Option PyEvent :=
  if chain.isEmpty then none
  else
    match selIdx with
    | none => none
    | some i =>
      let details := eventDetails chain
      if h : 0 ≤ i ∧ i.toNat < details.length then
        let info := details.get ⟨i.toNat, h.2⟩
        match chain.enum.find? (fun p => stageNameAt p.1 p.2 == info.stageName) with
        | some p =>
          if hj : info.eventIndex < p.2.events.length then
            some (p.2.events.get ⟨info.eventIndex, hj⟩)
          else none
        | none => none
      else none

/-- The single-turn outcome dict returned by `run_event_loop`
(lines 528–535; `session_id`/`dialog_history` omitted). -/
structure LoopResult where
  content : Str
  issue_id : Str
  event_status : Str
  is_ended : Bool
deriving DecidableEq

/-- Steps 5–8 of `run_event_loop` (lines 462–523), after the current event
was located: append the user message, obtain the reply (`none` models a
raised LLM call, line 501–504: the error text replaces the reply and the
status stays `进行中` with `is_ended = False`), classify it, and pick the
next event only on `成功` — otherwise `current_event_id` stays put.
`selIdx` scripts the selector call of `get_next_event_from_chain`. -/
def eventLoopStep (sd : EventSession) (userInput : Str) (reply : Option Str)
    (selIdx : Option Int) : LoopResult × EventSession :=
  let hist1 := sd.dialog_history ++ [⟨strLit "user", userInput⟩]
  let (agentReply, status, ended, hist2) :=
    match reply with
    | some r =>
      let (st, en) := classifyReply r
      (r, st, en, hist1 ++ [⟨strLit "assistant", r⟩])
    | none => (strLit "大模型调用失败", inProgress, false, hist1)
  let nextEvent := if status == succWord then chooseNextEvent sd.event_tree selIdx
                   else none
  let nextId := match nextEvent with
                | some e => e.event_id.getD sd.current_event_id
                | none => sd.current_event_id
  ({ content := agentReply, issue_id := nextId, event_status := status,
     is_ended := ended },
   { sd with current_event_id := nextId, event_status := status,
             dialog_history := hist2 })

/-! ### The `dialogs` rows used by the event loop
(`create_session` / `load_session` / `update_session`, lines 240–337) -/

/-- The columns of a `dialogs` row the event loop reads or writes.
`end_time_set` models whether `end_time` is non-NULL. -/
structure EventDialogRow where
  current_event_id : Str
  event_status : Str
  tree : List StageEvents
  history : List DialogMsg
  end_time_set : Bool
deriving DecidableEq

abbrev EventDialogs := List (Str × EventDialogRow)

def lookupRow (store : EventDialogs) (sid : Str) : Option EventDialogRow :=
  (store.find? (fun p => p.1 == sid)).map (fun p => p.2)

/-- `load_session` (lines 274–298): a missing row **raises**
`ValueError(f"无效的session_id：{sid}…")` — modelled as `Except.error sid`;
otherwise the session dict and the already-ended flag are returned. -/
def loadSession (store : EventDialogs) (sid : Str) :
    Except Str (EventSession × Bool) :=
  match lookupRow store sid with
  | none => .error sid
  | some row =>
    .ok ({ current_event_id := row.current_event_id, event_tree := row.tree,
           dialog_history := row.history, event_status := row.event_status },
         row.event_status == strLit "已结束" || row.end_time_set)

/-- The row written by `update_session` (lines 301–337): `end_time = NOW()`
only when `is_ended`, otherwise `end_time` is untouched. -/
def updatedEventRow (row : EventDialogRow) (sd : EventSession) (isEnded : Bool) :
    EventDialogRow :=
  { current_event_id := sd.current_event_id, event_status := sd.event_status,
    tree := sd.event_tree, history := sd.dialog_history,
    end_time_set := if isEnded then true else row.end_time_set }

/-- `update_session`: an `UPDATE … WHERE session_id = %s` — a pure
per-row rewrite, never an insert. -/
def updateEventSession (store : EventDialogs) (sid : Str) (sd : EventSession)
    (isEnded : Bool) : EventDialogs :=
  store.map (fun p => if p.1 == sid then (p.1, updatedEventRow p.2 sd isEnded) else p)

theorem lookupRow_cons (k : Str) (v : EventDialogRow) (rest : EventDialogs)
    (sid : Str) :
    lookupRow ((k, v) :: rest) sid
      = if k == sid then some v else lookupRow rest sid := by
  by_cases h : (k == sid) = true
  · simp [lookupRow, List.find?, h]
  · simp [lookupRow, List.find?, h]

theorem lookupRow_update (store : EventDialogs) (sid : Str) (sd : EventSession)
    (isEnded : Bool) (row : EventDialogRow) (h : lookupRow store sid = some row) :
    lookupRow (updateEventSession store sid sd isEnded) sid
      = some (updatedEventRow row sd isEnded) := by
  induction store with
  | nil => simp [lookupRow] at h
  | cons p rest ih =>
    rcases p with ⟨k, v⟩
    rw [lookupRow_cons] at h
    by_cases hp : (k == sid) = true
    · rw [if_pos hp] at h
      injection h with h
      simp only [updateEventSession, List.map_cons, if_pos hp]
      rw [lookupRow_cons, if_pos hp, h]
    · rw [if_neg hp] at h
      simp only [updateEventSession, List.map_cons, if_neg hp]
      rw [lookupRow_cons, if_neg hp]
      exact ih h

/-! ## Daily Loop Engine (`daily_loop_tool.py`) -/

/-- A daily dialog message; `saved` models the presence of the `'saved'`
marker key used by the flush loops. -/
structure DailyMsg where
  role : Str
  content : Str
  saved : Bool
deriving DecidableEq

/-- The `session_data` dict of a daily session.  `parsed_schedule`,
`last_activity`, `last_status`, `schedule_displayed` and `name` only feed
prompts/printing; the wall-clock activity scan (step 3 of §4.3) is kept
outside the model and its result is passed to `runDailyTurn` as the
`currentStatus` argument. -/
structure DailySession where
  conversation_counter : Nat
  pending_messages : List DailyMsg
  waiting_for_input : Bool
  exit_requested : Bool
  initialized : Bool
  conversation_history : List DailyMsg
deriving DecidableEq

/-- The fresh `session_data` built by `run_daily_loop` lines 138–151 when
the loaded blob has an empty `session_data`. -/
def freshDailySession : DailySession :=
  { conversation_counter := 0, pending_messages := [], waiting_for_input := false,
    exit_requested := false, initialized := false, conversation_history := [] }

/-- The JSON blob stored in `dialogs.dialog_json` for daily sessions
(`{"dialog_history": …, "session_data": …}`); `session_data = none`
models the empty dict `{}`. -/
structure DailyBlob where
  dialog_history : List DailyMsg
  session_data : Option DailySession
deriving DecidableEq

/-- A `dialogs` row as touched by the daily loop. -/
structure DailyRow where
  blob : DailyBlob
  status : Str
  end_time_set : Bool
deriving DecidableEq

abbrev DailyStore := List (Str × DailyRow)

def lookupDaily (store : DailyStore) (sid : Str) : Option DailyRow :=
  (store.find? (fun p => p.1 == sid)).map (fun p => p.2)

/-- `load_daily_session` (lines 93–121): a missing row (or an unparseable
blob, or any exception) yields the empty sentinel
`{"dialog_history": [], "session_data": {}}` — never an exception. -/
def loadDailySession (store : DailyStore) (sid : Str) : DailyBlob :=
  match lookupDaily store sid with
  | none => ⟨[], none⟩
  | some row => row.blob

/-- The row written by `update_daily_session` (lines 16–55): the blob is
replaced (with `dialog_history` taken from
`session_data["conversation_history"]`), `status` is set to
`ended`/`active`, and `end_time` is stamped only when ending. -/
def updatedDailyRow (row : DailyRow) (sd : DailySession) (isEnded : Bool) : DailyRow :=
  { blob := ⟨sd.conversation_history, some sd⟩,
    status := if isEnded then strLit "ended" else strLit "active",
    end_time_set := if isEnded then true else row.end_time_set }

/-- `update_daily_session` issues only an
`UPDATE dialogs … WHERE session_id = %s` — a per-row rewrite keyed by
session id, never an `INSERT`. -/
def updateDailySession (store : DailyStore) (sid : Str) (sd : DailySession)
    (isEnded : Bool) : DailyStore :=
  store.map (fun p => if p.1 == sid then (p.1, updatedDailyRow p.2 sd isEnded) else p)

/-- The initial row written by `init_daily_session` (lines 58–90). -/
def initialDailyRow : DailyRow :=
  { blob := ⟨[], some freshDailySession⟩, status := strLit "active",
    end_time_set := false }

/-- `init_daily_session`: inserts the fresh row only when no row with this
session id exists. -/
def initDailySession (store : DailyStore) (sid : Str) : DailyStore :=
  if store.any (fun p => p.1 == sid) then store else store ++ [(sid, initialDailyRow)]

/-- Lines 127–130 of `run_daily_loop`: a fresh session id is generated and
inserted only when the caller supplied no `session_id`; a caller-supplied
id is used as-is, with no insert. -/
def dailySessionBootstrap (store : DailyStore) (sessionId : Option Str)
    (freshId : Str) : Str × DailyStore :=
  match sessionId with
  | some sid => (sid, store)
  | none => (freshId, initDailySession store freshId)

/-! ### One daily turn (`run_daily_loop`, lines 124–665) -/

/-- ASCII lowering, Python `str.lower()` on the relevant alphabet (the
configured exit synonyms are ASCII or Chinese; Chinese characters are
unaffected by `lower`). -/
def asciiLower (s : Str) : Str :=
  s.map (fun c => if 'A' ≤ c && c ≤ 'Z' then Char.ofNat (c.toNat + 32) else c)

/-- Python `str.strip()` truthiness: `strBlank s = true` iff the stripped
string is empty (only whitespace). -/
def strBlank (s : Str) : Bool :=
  s.all (fun c => c == ' ' || c == '\t' || c == '\n' || c == '\r' || c == '\x0b' || c == '\x0c')

/-- The recognized exit phrases (line 453):
`["exit", "退出", "结束", "bye"]`, compared against the lowered input. -/
def exitPhrases : List Str :=
  [strLit "exit", strLit "退出", strLit "结束", strLit "bye"]

/-- The observable outcome of one `run_daily_loop` call.  `savedEnded`
records the `is_ended` argument of the `update_daily_session` call made
on the taken path (`none` = the path returns without saving);
`llmChatCalled` is whether `client.call_api` for the chat reply ran;
`evalHookRun` / `mergeHookRun` are the `main.evaluate_state_change` /
`main.state_update` collaborators; `flushedDialog` is the exit-branch
full-save loop (lines 478–490). -/
structure DailyOutcome where
  sd : DailySession
  llmChatCalled : Bool
  evalHookRun : Bool
  mergeHookRun : Bool
  flushedDialog : Bool
  savedEnded : Option Bool
deriving DecidableEq

/-- One call to `run_daily_loop` after the session blob was loaded,
following the source's control flow:

1. `exit_requested` short-circuit (line 154);
2. one-time initialization (lines 165–281) — the store loads are external
   reads, summarized by `agentFound` (agent row present and parseable;
   when absent the call returns early, lines 179–181);
3. the `waiting_for_input`-without-input early return (lines 374–376);
4. pending-message drain (lines 381–402);
5. busy-status without input → wait (lines 433–437);
6. exit phrase → hooks, flush, save as ended (lines 453–494);
7. otherwise one LLM chat call (`llmReply = none` models a raised call,
   lines 607–611) and a non-ended save;
8. blank input while idle falls through to the tail save
   (lines 640–665).

Message inserts into the flat `agent_messages` table are kept abstract
(they succeed in this model; a failure only moves messages to
`pending_messages`). -/
def runDailyTurn (sd0 : DailySession) (userInput : Option Str)
    (currentStatus : Str) (agentFound : Bool) (llmReply : Option Str) :
    DailyOutcome :=
  if sd0.exit_requested then
    { sd := sd0, llmChatCalled := false, evalHookRun := false,
      mergeHookRun := false, flushedDialog := false, savedEnded := none }
  else if !sd0.initialized && !agentFound then
    { sd := sd0, llmChatCalled := false, evalHookRun := false,
      mergeHookRun := false, flushedDialog := false, savedEnded := none }
  else
    let sd1 := if sd0.initialized then sd0 else { sd0 with initialized := true }
    if sd1.waiting_for_input && userInput.isNone then
      { sd := sd1, llmChatCalled := false, evalHookRun := false,
        mergeHookRun := false, flushedDialog := false, savedEnded := none }
    else
      let sd2 := if userInput.isSome then { sd1 with waiting_for_input := false } else sd1
      let sd3 := { sd2 with pending_messages := [] }
      let inputText := userInput.getD []
      if currentStatus != strLit "空闲" && strBlank inputText then
        { sd := { sd3 with waiting_for_input := true }, llmChatCalled := false,
          evalHookRun := false, mergeHookRun := false, flushedDialog := false,
          savedEnded := some false }
      else if !strBlank inputText then
        if exitPhrases.contains (asciiLower inputText) then
          { sd := { sd3 with exit_requested := true, waiting_for_input := false },
            llmChatCalled := false, evalHookRun := true, mergeHookRun := true,
            flushedDialog := true, savedEnded := some true }
        else
          -- the turn's user/assistant messages are appended to local lists
          -- (`messages`, `current_dialog`, the local `conversation_history`)
          -- which the save path does not write back into `session_data`;
          -- only the counter and the waiting flag change here
          match llmReply with
          | some _ =>
            let sd4 := { sd3 with
              conversation_counter := sd3.conversation_counter + 1,
              waiting_for_input := false }
            { sd := sd4, llmChatCalled := true, evalHookRun := false,
              mergeHookRun := false, flushedDialog := false, savedEnded := some false }
          | none =>
            { sd := { sd3 with waiting_for_input := true }, llmChatCalled := true,
              evalHookRun := false, mergeHookRun := false, flushedDialog := false,
              savedEnded := some false }
      else
        { sd := { sd3 with waiting_for_input := true }, llmChatCalled := false,
          evalHookRun := false, mergeHookRun := false, flushedDialog := false,
          savedEnded := some false }

/-! ## Global event pagination (`database.py:get_events_after`,
`Api.py:list_events` / lines 363–412) -/

/-- A row of the `global_event_counter` table (only the columns the
pagination logic depends on: the auto-increment primary key and the
owning agent). -/
structure GEvent where
  id : Nat
  agent_id : Nat
deriving DecidableEq

/-- `MySQLDB.get_events_after` (lines 327–369): cap `limit` at 100, then
`SELECT … WHERE id > %s ORDER BY id ASC LIMIT %s`. -/
def getEventsAfter (table : List GEvent) (lastNum lim : Nat) : List GEvent :=
  let lim' := if lim > 100 then 100 else lim
  ((table.filter (fun r => lastNum < r.id)).insertionSort
    (fun a b => a.id ≤ b.id)).take lim'

/-- `LPAD(id, 6, '0')`: zero-pad to width 6 (MySQL truncates to the
leftmost 6 characters when longer). -/
def lpad6 (n : Nat) : Str :=
  let d := decDigits n
  if 6 ≤ d.length then d.take 6 else List.replicate (6 - d.length) '0' ++ d

/-- The `/api/v1/events` handler (`Api.py:364-412`): after validating
`last_event_id ≤ 999999` and `1 ≤ limit ≤ 100` (`none` = HTTP 400), it
returns the formatted 6-digit ids and
`has_more = (len(return_events) == limit)`. -/
def listEventsAfterApi (table : List GEvent) (lastNum lim : Nat) :
    Option (List Str × Bool) :=
  if lastNum > 999999 then none
  else if lim < 1 || lim > 100 then none
  else
    let evs := getEventsAfter table lastNum lim
    some (evs.map (fun r => lpad6 r.id), evs.length == lim)

/-! ## Theorems -/

theorem lookupChain_cons (k : Nat) (v : Chain) (rest : ChainStore) (aid : Nat) :
    lookupChain ((k, v) :: rest) aid
      = if k == aid then some v else lookupChain rest aid := by
  by_cases h : (k == aid) = true
  · simp [lookupChain, List.find?, h]
  · simp [lookupChain, List.find?, h]

theorem lookupChain_mapPut (s : ChainStore) (aid : Nat) (c : Chain)
    (h : s.any (fun p => p.1 == aid) = true) :
    lookupChain (s.map (fun p => if p.1 == aid then (p.1, c) else p)) aid = some c := by
  induction s with
  | nil => simp at h
  | cons p rest ih =>
    rcases p with ⟨k, v⟩
    by_cases hk : (k == aid) = true
    · simp only [List.map_cons, hk, if_true]
      rw [lookupChain_cons, if_pos hk]
    · simp only [List.any_cons, hk, Bool.false_or] at h
      simp only [List.map_cons, hk, Bool.false_eq_true, if_false]
      rw [lookupChain_cons, if_neg hk]
      exact ih h

theorem lookupChain_append_self (s : ChainStore) (aid : Nat) (c : Chain)
    (h : s.any (fun p => p.1 == aid) = false) :
    lookupChain (s ++ [(aid, c)]) aid = some c := by
  induction s with
  | nil => simp [lookupChain, List.find?]
  | cons p rest ih =>
    rcases p with ⟨k, v⟩
    simp only [List.any_cons, Bool.or_eq_false_iff] at h
    rw [List.cons_append, lookupChain_cons, if_neg (by simp [h.1])]
    exact ih (by simp [h.2])

/-- After `_save_event_tree`'s upsert, the agent's latest chain row is the
one just written. -/
theorem lookupChain_upsert (s : ChainStore) (aid : Nat) (c : Chain) :
    lookupChain (upsertChain s aid c) aid = some c := by
  by_cases h : s.any (fun p => p.1 == aid) = true
  · rw [upsertChain, if_pos h]
    exact lookupChain_mapPut s aid c h
  · rw [upsertChain, if_neg h]
    exact lookupChain_append_self s aid c (Bool.not_eq_true _ ▸ by simpa using h)

/-- C3 — **E001 idempotency.**  Running `generate_and_save` a second time
for the same agent returns exactly the tree the first run left in the
store and performs no further write: the second call finds the stored
chain (`generate_and_save` lines 894–913) and returns it unchanged,
without regenerating E001 and without a second insert.  This holds for
any starting store and any scripted LLM responses, because the first call
always leaves an upserted row for the agent. -/
theorem claim_C3_initial_generation_idem (aid : Nat) (store : ChainStore)
    (stages stages₂ : List LifeStage) (stream stream₂ : List Attempt) :
    generateAndSave aid (generateAndSave aid store stages stream).2 stages₂ stream₂
      = generateAndSave aid store stages stream := by
  cases hfind : lookupChain store aid with
  | some c => simp [generateAndSave, hfind]
  | none =>
    cases hg : generateInitialEventOnly stages stream with
    | some ev =>
      simp only [generateAndSave, hfind, hg]
      rw [lookupChain_upsert]
    | none =>
      simp only [generateAndSave, hfind, hg]
      rw [lookupChain_upsert]

theorem chooseNextEvent_none_sel (chain : List StageEvents) :
    chooseNextEvent chain none = none := by
  unfold chooseNextEvent
  split <;> rfl

theorem chooseNextEvent_out_of_range (chain : List StageEvents) (i : Int)
    (h : i < 0 ∨ (eventDetails chain).length ≤ i.toNat) :
    chooseNextEvent chain (some i) = none := by
  unfold chooseNextEvent
  split
  · rfl
  · dsimp only
    rw [dif_neg]
    rintro ⟨h1, h2⟩
    rcases h with h | h
    · omega
    · omega

/-- C7 — **next-event selection.**  In `run_event_loop` (lines 517–521) a
failed — indeed any non-`成功` — classification leaves the session's
`current_event_id` unchanged; only a succeeded event consults the
LLM-arbitrated selector `get_next_event_from_chain`, and when that
selector's reply is unparseable (`selIdx = none`) or its index is
out of range, no next event is chosen and `current_event_id` stays put. -/
theorem claim_C7_next_event_selection (sd : EventSession) (input : Str)
    (reply : Option Str) (selIdx : Option Int) :
    ((∀ r, reply = some r → (classifyReply r).1 ≠ succWord →
        (eventLoopStep sd input reply selIdx).2.current_event_id
          = sd.current_event_id))
  ∧ (reply = none →
      (eventLoopStep sd input reply selIdx).2.current_event_id
        = sd.current_event_id)
  ∧ (selIdx = none →
      (eventLoopStep sd input reply selIdx).2.current_event_id
        = sd.current_event_id)
  ∧ (∀ i, selIdx = some i →
      (i < 0 ∨ (eventDetails sd.event_tree).length ≤ i.toNat) →
      (eventLoopStep sd input reply selIdx).2.current_event_id
        = sd.current_event_id) := by
  refine ⟨?_, ?_, ?_, ?_⟩
  · intro r hr hne
    subst hr
    have hb : ((classifyReply r).1 == succWord) = false := by
      exact beq_eq_false_iff_ne.mpr hne
    simp only [eventLoopStep]
    simp [hb]
  · intro hr
    subst hr
    simp only [eventLoopStep]
    have : (inProgress == succWord) = false := by decide
    simp [this]
  · intro hs
    subst hs
    cases reply with
    | none =>
      simp only [eventLoopStep]
      have : (inProgress == succWord) = false := by decide
      simp [this]
    | some r =>
      simp only [eventLoopStep]
      cases hb : (classifyReply r).1 == succWord with
      | false => simp [hb]
      | true => simp [hb, chooseNextEvent_none_sel]
  · intro i hi hrange
    subst hi
    cases reply with
    | none =>
      simp only [eventLoopStep]
      have : (inProgress == succWord) = false := by decide
      simp [this]
    | some r =>
      simp only [eventLoopStep]
      cases hb : (classifyReply r).1 == succWord with
      | false => simp [hb]
      | true => simp [hb, chooseNextEvent_out_of_range sd.event_tree i hrange]

/-- A concrete event session used to instantiate the event-loop theorems. -/
def sessionW : EventSession :=
  { current_event_id := strLit "E001", event_tree := [], dialog_history := [],
    event_status := strLit "进行中" }

/-- Witness for C7: a reply carrying the failure marker (classified `失败`)
leaves the concrete session's `current_event_id` at `E001`. -/
theorem claim_C7_next_event_selection_witness :
    (eventLoopStep sessionW (strLit "你好")
        (some (strLit "很遗憾。【事件结束：失败】")) (some 0)).2.current_event_id
      = strLit "E001" :=
  (claim_C7_next_event_selection sessionW (strLit "你好")
      (some (strLit "很遗憾。【事件结束：失败】")) (some 0)).1
    (strLit "很遗憾。【事件结束：失败】") rfl (by decide)

/-- C9 — **end marker without an outcome word.**  When the reply contains
the end prefix `事件结束` but neither `成功` nor `失败`
(`run_event_loop` lines 493–499), the call returns `is_ended = true`
while `event_status` stays the non-terminal `进行中`, and `update_session`
persists the session as ended (`end_time` stamped) with that non-terminal
status. -/
theorem claim_C9_end_without_outcome (sd : EventSession) (input reply : Str)
    (selIdx : Option Int) (store : EventDialogs) (sid : Str) (row : EventDialogRow)
    (h1 : occursIn endMark reply = true)
    (h2 : occursIn succWord reply = false)
    (h3 : occursIn failWord reply = false)
    (hrow : lookupRow store sid = some row) :
    (eventLoopStep sd input (some reply) selIdx).1.is_ended = true
  ∧ (eventLoopStep sd input (some reply) selIdx).1.event_status = inProgress
  ∧ (eventLoopStep sd input (some reply) selIdx).2.event_status = inProgress
  ∧ ∃ row', lookupRow (updateEventSession store sid
        (eventLoopStep sd input (some reply) selIdx).2
        (eventLoopStep sd input (some reply) selIdx).1.is_ended) sid = some row'
      ∧ row'.event_status = inProgress ∧ row'.end_time_set = true := by
  have hcl : classifyReply reply = (inProgress, true) := by
    simp [classifyReply, h1, h2, h3]
  have hne : (inProgress == succWord) = false := by decide
  have hstep : eventLoopStep sd input (some reply) selIdx
      = ({ content := reply, issue_id := sd.current_event_id,
           event_status := inProgress, is_ended := true },
         { sd with event_status := inProgress,
                   dialog_history := sd.dialog_history
                     ++ [⟨strLit "user", input⟩] ++ [⟨strLit "assistant", reply⟩] }) := by
    simp [eventLoopStep, hcl, hne]
  refine ⟨by rw [hstep], by rw [hstep], by rw [hstep], ?_⟩
  rw [hstep]
  exact ⟨_, lookupRow_update store sid _ true row hrow, rfl, rfl⟩

/-- A concrete stored `dialogs` row for the event-loop witnesses. -/
def rowW : EventDialogRow :=
  { current_event_id := strLit "E001", event_status := strLit "进行中",
    tree := [], history := [], end_time_set := false }

/-- Witness for C9 at a concrete store, session and reply. -/
theorem claim_C9_end_without_outcome_witness :
    (eventLoopStep sessionW (strLit "走吧") (some (strLit "这次事件结束了。")) none).1.is_ended
      = true
  ∧ (eventLoopStep sessionW (strLit "走吧") (some (strLit "这次事件结束了。")) none).1.event_status
      = inProgress :=
  have h := claim_C9_end_without_outcome sessionW (strLit "走吧")
    (strLit "这次事件结束了。") none [(strLit "sid-1", rowW)]
    (strLit "sid-1") rowW (by decide) (by decide) (by decide) rfl
  ⟨h.1, h.2.1⟩

/-- C2 counterexample — the code classifies by the bare words `成功`/`失败`
(after the `事件结束` prefix), not by the full markers: a reply carrying
only the failure marker `【事件结束：失败】` but the word `成功` elsewhere
is classified `成功`, although the success marker is absent. -/
theorem claim_C2_counterexample :
    occursIn failMarker (strLit "你没能成功。【事件结束：失败】") = true
  ∧ occursIn succMarker (strLit "你没能成功。【事件结束：失败】") = false
  ∧ classifyReply (strLit "你没能成功。【事件结束：失败】") = (succWord, true) := by
  decide

/-- C2 (amended) — **termination marker priority.**  A reply containing
the success marker (in particular one containing both markers) is
classified `成功` with `is_ended = true` — success is checked before
failure; a reply containing the failure marker is always ended with a
terminal-word status, and is classified `失败` exactly when the word
`成功` does not also occur somewhere in the reply (the code scans bare
words, `run_event_loop` lines 493–499). -/
theorem claim_C2_marker_priority (reply : Str) :
    (occursIn succMarker reply = true → classifyReply reply = (succWord, true))
  ∧ (occursIn failMarker reply = true → (classifyReply reply).2 = true
      ∧ ((classifyReply reply).1 = succWord ∨ (classifyReply reply).1 = failWord))
  ∧ (occursIn failMarker reply = true → occursIn succWord reply = false →
      classifyReply reply = (failWord, true)) := by
  refine ⟨?_, ?_, ?_⟩
  · intro hs
    have hend : occursIn endMark reply = true :=
      occursIn_trans (by decide : occursIn endMark succMarker = true) hs
    have hsw : occursIn succWord reply = true :=
      occursIn_trans (by decide : occursIn succWord succMarker = true) hs
    simp [classifyReply, hend, hsw]
  · intro hf
    have hend : occursIn endMark reply = true :=
      occursIn_trans (by decide : occursIn endMark failMarker = true) hf
    have hfw : occursIn failWord reply = true :=
      occursIn_trans (by decide : occursIn failWord failMarker = true) hf
    cases hsw : occursIn succWord reply with
    | true => exact ⟨by simp [classifyReply, hend, hsw], Or.inl (by simp [classifyReply, hend, hsw])⟩
    | false => exact ⟨by simp [classifyReply, hend, hsw, hfw], Or.inr (by simp [classifyReply, hend, hsw, hfw])⟩
  · intro hf hsw
    have hend : occursIn endMark reply = true :=
      occursIn_trans (by decide : occursIn endMark failMarker = true) hf
    have hfw : occursIn failWord reply = true :=
      occursIn_trans (by decide : occursIn failWord failMarker = true) hf
    simp [classifyReply, hend, hsw, hfw]

/-- Witness for C2: the acknowledged tie-break — a reply containing both
full markers is classified success and ended. -/
theorem claim_C2_marker_priority_witness :
    classifyReply (strLit "【事件结束：成功】【事件结束：失败】") = (succWord, true) :=
  (claim_C2_marker_priority (strLit "【事件结束：成功】【事件结束：失败】")).1
    (by decide)

/-- A plain event dict with the given id and name present. -/
def evW (id name : String) : PyEvent :=
  { event_id := some (strLit id), name := some (strLit name), status := none }

/-- The stored tree holding only the introductory event `E001`. -/
def treeW : List StageEvents :=
  [⟨some (strLit "初始阶段"), some (strLit "起点"), [evW "E001" "初次相遇"]⟩]

/-- Two lifecycle stages, so that a second-stage generation is due. -/
def stagesW : List LifeStage :=
  [⟨strLit "阶段一", strLit "范围一"⟩, ⟨strLit "阶段二", strLit "范围二"⟩]

/-- A parsed LLM response whose events already carry (non-contiguous)
`event_id`s — the structural validator accepts them as-is. -/
def respW : Attempt :=
  some ⟨some (strLit "阶段二"), some (strLit "范围二"), [evW "E005" "甲", evW "E007" "乙"]⟩

/-- C1 counterexample — the contiguity invariant is not enforced:
`generate_next_stage_events` drops events lacking an `event_id`
(lines 133–139), so the `needs_id_assignment` guard (line 147) never
fires and LLM-supplied ids are stored unvalidated.  Feeding a response
with ids `E005`, `E007` to a tree holding `E001` yields a generated tree
whose sorted id set `{1, 5, 7}` has gaps — and the stage generation
reports success (a non-empty event list is returned with the ids kept). -/
theorem claim_C1_counterexample :
    contiguousFromOne
        (treeIdNums (generateNextStageEvents stagesW (strLit "E001") treeW [respW]).2.1)
      = false
  ∧ (generateNextStageEvents stagesW (strLit "E001") treeW [respW]).1.map
        (fun e => e.event_id)
      = [some (strLit "E005"), some (strLit "E007")] := by
  decide

theorem assignIdsFrom_map (evs : List PyEvent) :
    ∀ n, (assignIdsFrom n evs).map (fun e => e.event_id)
      = (natRangeFrom (n + 1) evs.length).map (fun k => some (formatEventId k)) := by
  induction evs with
  | nil => intro n; rfl
  | cons e es ih =>
    intro n
    simp only [assignIdsFrom, List.map_cons, List.length_cons, natRangeFrom, ih (n + 1)]

theorem validated_events_have_ids (l : List PyEvent) :
    (l.filter (fun e => e.event_id.isSome && e.name.isSome)).any
        (fun e => e.event_id.isNone)
      = false := by
  rw [Bool.eq_false_iff]
  intro h
  rcases List.any_eq_true.mp h with ⟨e, hmem, hnone⟩
  rcases List.mem_filter.mp hmem with ⟨-, hkeep⟩
  rcases (Bool.and_eq_true _ _).mp hkeep with ⟨hsome, -⟩
  rw [Option.isNone_iff_eq_none.mp hnone] at hsome
  exact Bool.noConfusion hsome

/-- C1 (amended) — **event id assignment.**  `_assign_event_ids` is the
pure successor assignment the claim describes: starting from
`last_event_id = E⟨n⟩` it gives the events the contiguous id block
`E⟨n+1⟩ … E⟨n+len⟩` (`E` + zero-padded decimal), leaves the counter at
the last id assigned (never resetting it), and the `E⟨n⟩` encoding
round-trips through `int(id[1:])`, so the counter survives stage
boundaries.  However (see the counterexample) the validated path of
`generate_next_stage_events` keeps LLM-supplied ids unchanged and never
invokes this assignment, so the global `E001..E0NN` contiguity of stored
trees is not guaranteed. -/
theorem claim_C1_event_id_assignment (lastId : Str) (evs : List PyEvent) :
    ((assignEventIds lastId evs).1.map (fun e => e.event_id)
      = (natRangeFrom (parseNatDigits (lastId.drop 1) + 1) evs.length).map
          (fun k => some (formatEventId k)))
  ∧ ((assignEventIds lastId evs).2
      = if evs.isEmpty then lastId
        else formatEventId (parseNatDigits (lastId.drop 1) + evs.length))
  ∧ (∀ k, parseNatDigits ((formatEventId k).drop 1) = k)
  ∧ (∀ ed ed', validateStageEvents (some ed) = some ed' →
      (processStageEvents lastId ed').1.events.map (fun e => e.event_id)
        = ed'.events.map (fun e => e.event_id)
      ∧ (processStageEvents lastId ed').2 = lastId) := by
  refine ⟨assignIdsFrom_map evs _, rfl, parse_formatEventId, ?_⟩
  intro ed ed' hv
  have hids : ed'.events.any (fun e => e.event_id.isNone) = false := by
    simp only [validateStageEvents] at hv
    by_cases hlen : 0 < (ed.events.filter (fun e => e.event_id.isSome && e.name.isSome)).length
    · rw [if_pos hlen] at hv
      injection hv with hv
      rw [← hv]
      exact validated_events_have_ids ed.events
    · rw [if_neg hlen] at hv
      exact Option.noConfusion hv
  constructor
  · simp only [processStageEvents, hids, Bool.false_eq_true, if_false, List.map_map]
    rfl
  · simp only [processStageEvents, hids, Bool.false_eq_true, if_false]

/-- Witness for C1: assigning two events from `last_event_id = E003`
yields ids `E004`, `E005` and counter `E005`; the validated passthrough
keeps the concrete response's ids. -/
theorem claim_C1_event_id_assignment_witness :
    ((assignEventIds (strLit "E003") [evW "x" "甲", evW "y" "乙"]).1.map
        (fun e => e.event_id)
      = (natRangeFrom 4 2).map (fun k => some (formatEventId k)))
  ∧ ((processStageEvents (strLit "E003")
        ⟨some (strLit "阶段二"), some (strLit "范围二"),
         [evW "E005" "甲", evW "E007" "乙"]⟩).1.events.map (fun e => e.event_id)
      = [some (strLit "E005"), some (strLit "E007")]) :=
  ⟨(claim_C1_event_id_assignment (strLit "E003") [evW "x" "甲", evW "y" "乙"]).1,
   ((claim_C1_event_id_assignment (strLit "E003") []).2.2.2
      ⟨some (strLit "阶段二"), some (strLit "范围二"),
       [evW "E005" "甲", evW "E007" "乙"]⟩
      ⟨some (strLit "阶段二"), some (strLit "范围二"),
       [evW "E005" "甲", evW "E007" "乙"]⟩ (by decide)).1⟩

theorem genNextStageLoop_all_invalid (l : List Attempt) :
    ∀ lastId tree, (∀ a ∈ l, validateStageEvents a = none) →
      genNextStageLoop lastId tree l = ([], tree, lastId) := by
  induction l with
  | nil => intro lastId tree _; rfl
  | cons a rest ih =>
    intro lastId tree h
    have ha := h a (List.mem_cons_self a rest)
    simp only [genNextStageLoop, ha]
    exact ih lastId tree (fun b hb => h b (List.mem_cons_of_mem a hb))

theorem genInitialOnlyLoop_all_invalid (l : List Attempt) :
    (∀ a ∈ l, ∀ ed, a = some ed → ed.events = []) →
      genInitialOnlyLoop l = none := by
  induction l with
  | nil => intro _; rfl
  | cons a rest ih =>
    intro h
    cases a with
    | none =>
      simp only [genInitialOnlyLoop]
      exact ih (fun b hb => h b (List.mem_cons_of_mem none hb))
    | some ed =>
      have hed : ed.events = [] := h (some ed) (List.mem_cons_self _ rest) ed rfl
      simp only [genInitialOnlyLoop, hed, List.map_nil, List.length_nil,
        Nat.lt_irrefl, if_false]
      exact ih (fun b hb => h b (List.mem_cons_of_mem (some ed) hb))

/-- C6 counterexample — `generate_lifecycle_stages` does **not** retry: it
makes a single API call, so with a structurally-invalid first response it
returns `[]` even though a valid response would have been available on
the second attempt (which a 3-retry policy, as claimed, would consume). -/
theorem claim_C6_counterexample :
    generateLifecycleStages
        [LifecycleResp.badStructure,
         LifecycleResp.good [⟨strLit "少年", strLit "2020-2025"⟩]]
      = []
  ∧ parseLifecycleResp (LifecycleResp.good [⟨strLit "少年", strLit "2020-2025"⟩])
      ≠ [] := by
  decide

/-- C6 (amended) — **retry policy.**  Stage-event generation
(`generate_next_stage_events`) and initial-event generation
(`generate_initial_event_only`) retry up to 3 times on
structurally-invalid output and return an empty result after exhausting
the retries, without raising (each invalid attempt just consumes the next
response); but lifecycle-stage generation (`generate_lifecycle_stages`)
and `generate_initial_event` make a single attempt — later responses are
never consulted — and return an empty result on any invalid output, with
the generator state untouched. -/
theorem claim_C6_retry_policy (stages : List LifeStage) (lastId : Str)
    (tree : List StageEvents) (stream : List Attempt) :
    ((∀ a ∈ stream.take 3, validateStageEvents a = none) →
        ¬stages.isEmpty = true → tree.length < stages.length →
        generateNextStageEvents stages lastId tree stream = ([], tree, lastId))
  ∧ ((∀ a ∈ stream.take 3, ∀ ed, a = some ed → ed.events = []) →
        generateInitialEventOnly stages stream = none)
  ∧ (∀ a rest, validateStageEvents a = none →
        genNextStageLoop lastId tree (a :: rest) = genNextStageLoop lastId tree rest)
  ∧ (∀ r rest, generateLifecycleStages (r :: rest) = parseLifecycleResp r)
  ∧ (∀ r rest, generateInitialEvent tree lastId (r :: rest)
        = generateInitialEvent tree lastId [r])
  ∧ (∀ rest, generateInitialEvent tree lastId (InitialResp.raised :: rest)
        = (none, tree, lastId)
      ∧ generateInitialEvent tree lastId (InitialResp.noJson :: rest)
        = (none, tree, lastId)) := by
  refine ⟨?_, ?_, ?_, ?_, ?_, ?_⟩
  · intro hinv hne hlen
    rw [generateNextStageEvents, if_neg hne, if_neg (by omega)]
    exact genNextStageLoop_all_invalid _ lastId tree hinv
  · intro hinv
    rw [generateInitialEventOnly]
    split
    · rfl
    · exact genInitialOnlyLoop_all_invalid _ hinv
  · intro a rest ha
    simp only [genNextStageLoop, ha]
  · intro r rest
    rfl
  · intro r rest
    cases r <;> rfl
  · intro rest
    exact ⟨rfl, rfl⟩

/-- Witness for C6: three invalid attempts on a due second stage produce
an empty result with the tree untouched. -/
theorem claim_C6_retry_policy_witness :
    generateNextStageEvents stagesW (strLit "E001") treeW [none, none, none]
      = ([], treeW, strLit "E001") :=
  (claim_C6_retry_policy stagesW (strLit "E001") treeW [none, none, none]).1
    (by decide) (by decide) (by decide)

/-- C5 counterexample — the event-session load path does **not** tolerate
a missing session: `load_session` (lines 274–298) raises
`ValueError` when no row matches, instead of returning an empty-history
state. -/
theorem claim_C5_counterexample :
    loadSession [] (strLit "nonexistent-id") = Except.error (strLit "nonexistent-id") := by
  rfl

/-- C5 (amended) — **missing-session tolerance, daily path only.**  For a
session id with no stored row, `load_daily_session` returns the
empty-history sentinel `{"dialog_history": [], "session_data": {}}`
rather than raising, while the event-session `load_session` raises a
`ValueError` (an error result, not an empty state). -/
theorem claim_C5_missing_session (dstore : DailyStore) (sid : Str)
    (estore : EventDialogs) (sid₂ : Str)
    (hd : lookupDaily dstore sid = none)
    (he : lookupRow estore sid₂ = none) :
    loadDailySession dstore sid = ⟨[], none⟩
  ∧ loadSession estore sid₂ = Except.error sid₂ := by
  constructor
  · rw [loadDailySession, hd]
  · rw [loadSession, he]

/-- Witness for C5 at a concrete store holding one unrelated session. -/
theorem claim_C5_missing_session_witness :
    loadDailySession [] (strLit "nonexistent-id") = ⟨[], none⟩
  ∧ loadSession [(strLit "sid-1", rowW)] (strLit "missing") = Except.error (strLit "missing") :=
  claim_C5_missing_session [] (strLit "nonexistent-id")
    [(strLit "sid-1", rowW)] (strLit "missing") rfl (by decide)

/-- C10 — **daily save is update-only.**  `update_daily_session` issues
only an `UPDATE … WHERE session_id = %s` and never inserts (the key set
of the `dialogs` table is preserved for every store); a row is inserted
only on the `session_id = None` path of `run_daily_loop`
(`init_daily_session`).  Hence a caller-supplied session id with no
stored row behaves as a fresh session (`load_daily_session` returns the
empty sentinel, whose empty `session_data` triggers the fresh-session
defaults) while every save on that id leaves the `dialogs` store exactly
unchanged. -/
theorem claim_C10_daily_save_frame (store : DailyStore) (sid fresh : Str)
    (sd : DailySession) (isEnded : Bool) :
    ((updateDailySession store sid sd isEnded).map Prod.fst = store.map Prod.fst)
  ∧ (lookupDaily store sid = none →
      updateDailySession store sid sd isEnded = store)
  ∧ (lookupDaily store sid = none → loadDailySession store sid = ⟨[], none⟩)
  ∧ (dailySessionBootstrap store (some sid) fresh = (sid, store))
  ∧ (dailySessionBootstrap store none fresh = (fresh, initDailySession store fresh)) := by
  refine ⟨?_, ?_, ?_, rfl, rfl⟩
  · rw [updateDailySession, List.map_map]
    apply List.map_congr_left
    intro p _
    show (if (p.1 == sid) = true then (p.1, updatedDailyRow p.2 sd isEnded) else p).1 = p.1
    split <;> rfl
  · intro h
    have hall : ∀ p ∈ store, ¬((fun q => q.1 == sid) p = true) := by
      rw [lookupDaily] at h
      exact List.find?_eq_none.mp (Option.map_eq_none'.mp h)
    rw [updateDailySession]
    conv_rhs => rw [← List.map_id store]
    apply List.map_congr_left
    intro p hp
    have := hall p hp
    simp only [Bool.not_eq_true] at this
    simp [this]
  · intro h
    rw [loadDailySession, h]

/-- Witness for C10: saving under an absent session id leaves a concrete
one-row store unchanged. -/
theorem claim_C10_daily_save_frame_witness :
    updateDailySession [(strLit "daily_abc", initialDailyRow)] (strLit "daily_missing")
        freshDailySession true
      = [(strLit "daily_abc", initialDailyRow)] :=
  (claim_C10_daily_save_frame [(strLit "daily_abc", initialDailyRow)]
      (strLit "daily_missing") (strLit "daily_f") freshDailySession true).2.1
    (by decide)

theorem asciiLower_of_blank (s : Str) (h : strBlank s = true) : asciiLower s = s := by
  induction s with
  | nil => rfl
  | cons c cs ih =>
    rw [strBlank, List.all_cons, Bool.and_eq_true] at h
    rw [asciiLower, List.map_cons]
    have hc : (if 'A' ≤ c && c ≤ 'Z' then Char.ofNat (c.toNat + 32) else c) = c := by
      rcases h with ⟨hc, -⟩
      simp only [Bool.or_eq_true, beq_iff_eq] at hc
      rcases hc with ((((h | h) | h) | h) | h) | h <;> subst h <;> decide
    rw [hc]
    rw [show List.map _ cs = asciiLower cs from rfl, ih h.2]

theorem strBlank_eq_false_of_lower (s : Str)
    (h : strBlank (asciiLower s) = false) : strBlank s = false := by
  by_contra hb
  rw [Bool.not_eq_false] at hb
  rw [asciiLower_of_blank s hb, hb] at h
  exact Bool.noConfusion h

theorem exit_phrase_not_blank (s : Str)
    (h : exitPhrases.contains (asciiLower s) = true) : strBlank s = false := by
  apply strBlank_eq_false_of_lower
  have hm : asciiLower s ∈ exitPhrases := List.mem_of_elem_eq_true h
  simp only [exitPhrases, List.mem_cons, List.not_mem_nil, or_false] at hm
  rcases hm with hm | hm | hm | hm <;> rw [hm] <;> decide

/-- C8 — **exit detection.**  Feeding an exit phrase (`exit`, `退出`,
`结束`, `bye`, matched case-insensitively on the lowered input;
`run_daily_loop` line 453) to a live daily session — regardless of the
current activity/status and of the waiting flag — sets
`exit_requested = true` in the returned state, runs the state-evaluation
hook (`main.evaluate_state_change`) and the state-merge hook
(`main.state_update`), flushes the unsaved dialog messages, saves the
session as ended, and makes no LLM chat call in that turn. -/
theorem claim_C8_exit_detection (sd : DailySession) (input : Str)
    (currentStatus : Str) (agentFound : Bool) (llmReply : Option Str)
    (h0 : sd.exit_requested = false)
    (h1 : sd.initialized = true ∨ agentFound = true)
    (h2 : exitPhrases.contains (asciiLower input) = true) :
    (runDailyTurn sd (some input) currentStatus agentFound llmReply).sd.exit_requested = true
  ∧ (runDailyTurn sd (some input) currentStatus agentFound llmReply).evalHookRun = true
  ∧ (runDailyTurn sd (some input) currentStatus agentFound llmReply).mergeHookRun = true
  ∧ (runDailyTurn sd (some input) currentStatus agentFound llmReply).flushedDialog = true
  ∧ (runDailyTurn sd (some input) currentStatus agentFound llmReply).savedEnded = some true
  ∧ (runDailyTurn sd (some input) currentStatus agentFound llmReply).llmChatCalled = false := by
  have hblank : strBlank input = false := exit_phrase_not_blank input h2
  have hinit : (!sd.initialized && !agentFound) = false := by
    rcases h1 with h | h <;> simp [h]
  rw [runDailyTurn]
  rw [if_neg (by rw [h0]; exact Bool.noConfusion)]
  rw [if_neg (by rw [hinit]; exact Bool.noConfusion)]
  rw [if_neg (by simp)]
  simp only [Option.isSome_some, if_true, Option.getD_some]
  rw [if_neg (by rw [hblank]; simp)]
  rw [if_pos (by rw [hblank]; rfl)]
  rw [if_pos h2]
  exact ⟨rfl, rfl, rfl, rfl, rfl, rfl⟩

/-- A concrete live daily session. -/
def dailyW : DailySession :=
  { conversation_counter := 3, pending_messages := [], waiting_for_input := true,
    exit_requested := false, initialized := true,
    conversation_history := [⟨strLit "user", strLit "你好", true⟩] }

/-- Witness for C8: `"exit"` during a busy slot ends the concrete session
without a chat call. -/
theorem claim_C8_exit_detection_witness :
    (runDailyTurn dailyW (some (strLit "exit")) (strLit "忙碌") true none).sd.exit_requested
      = true
  ∧ (runDailyTurn dailyW (some (strLit "exit")) (strLit "忙碌") true none).llmChatCalled
      = false :=
  have h := claim_C8_exit_detection dailyW (strLit "exit") (strLit "忙碌") true none
    rfl (Or.inl rfl) (by decide)
  ⟨h.1, h.2.2.2.2.2⟩

instance : IsTotal GEvent (fun a b => a.id ≤ b.id) :=
  ⟨fun a b => Nat.le_total a.id b.id⟩

instance : IsTrans GEvent (fun a b => a.id ≤ b.id) :=
  ⟨fun _ _ _ => Nat.le_trans⟩

theorem lpad6_length (n : Nat) : (lpad6 n).length = 6 := by
  rw [lpad6]
  split
  · simp only [List.length_take]
    omega
  · rw [List.length_append, List.length_replicate]
    omega

/-- The global event table of the pagination scenario: five rows, so
exactly two rows have id greater than 3. -/
def gtableW : List GEvent := [⟨1, 1⟩, ⟨2, 1⟩, ⟨3, 1⟩, ⟨4, 2⟩, ⟨5, 2⟩]

/-- C4 counterexample — with **exactly** 2 newer rows and `limit = 2` the
handler returns those 2 events ascending but `has_more = true`, not
`false` as claimed: `has_more` is `len(results) == limit`, which is a
false positive when the remaining count equals the limit. -/
theorem claim_C4_counterexample :
    listEventsAfterApi gtableW 3 2
      = some ([strLit "000004", strLit "000005"], true) := by
  decide

/-- C4 (amended) — **pagination.**  For a valid request
(`1 ≤ limit ≤ 100`, cursor ≤ 999999) over a table with distinct ids
(`id` is the auto-increment primary key), `list_events_after` returns the
first `min(limit, available)` rows with id greater than the cursor in
strictly ascending id order, as 6-digit zero-padded id strings, and
`has_more = (len(results) == limit)` — so `has_more` is `true` whenever
at least `limit` newer rows exist, **including** the exactly-`limit`
case, and `false` only when fewer than `limit` remain. -/
theorem claim_C4_pagination (table : List GEvent) (lastNum lim : Nat)
    (h1 : 1 ≤ lim) (h2 : lim ≤ 100) (h3 : lastNum ≤ 999999)
    (hnd : (table.map GEvent.id).Nodup) :
    List.Pairwise (fun a b => a.id < b.id) (getEventsAfter table lastNum lim)
  ∧ (getEventsAfter table lastNum lim).length
      = min lim (table.filter (fun r => lastNum < r.id)).length
  ∧ ((getEventsAfter table lastNum lim).length = lim
      ↔ lim ≤ (table.filter (fun r => lastNum < r.id)).length)
  ∧ listEventsAfterApi table lastNum lim
      = some ((getEventsAfter table lastNum lim).map (fun r => lpad6 r.id),
              (getEventsAfter table lastNum lim).length == lim)
  ∧ (∀ r ∈ getEventsAfter table lastNum lim, (lpad6 r.id).length = 6) := by
  have hga : getEventsAfter table lastNum lim
      = ((table.filter (fun r => lastNum < r.id)).insertionSort
          (fun a b => a.id ≤ b.id)).take lim := by
    rw [getEventsAfter]
    rw [if_neg (by omega)]
  have hsorted := List.sorted_insertionSort (fun a b : GEvent => a.id ≤ b.id)
    (table.filter (fun r => lastNum < r.id))
  have hperm := List.perm_insertionSort (fun a b : GEvent => a.id ≤ b.id)
    (table.filter (fun r => lastNum < r.id))
  have hnd_sorted : (((table.filter (fun r => lastNum < r.id)).insertionSort
      (fun a b => a.id ≤ b.id)).map GEvent.id).Nodup := by
    have hsub : List.Sublist ((table.filter (fun r => lastNum < r.id)).map GEvent.id)
        (table.map GEvent.id) := List.Sublist.map GEvent.id (List.filter_sublist table)
    exact ((hperm.map GEvent.id).nodup_iff).mpr (hnd.sublist hsub)
  have hlt : List.Pairwise (fun a b => a.id < b.id)
      ((table.filter (fun r => lastNum < r.id)).insertionSort
        (fun a b => a.id ≤ b.id)) := by
    have hne := List.pairwise_map.mp hnd_sorted
    exact (hsorted.and hne).imp (fun hab => Nat.lt_of_le_of_ne hab.1 hab.2)
  have hlen : (getEventsAfter table lastNum lim).length
      = min lim (table.filter (fun r => lastNum < r.id)).length := by
    rw [hga, List.length_take, List.length_insertionSort]
  refine ⟨?_, hlen, ?_, ?_, ?_⟩
  · rw [hga]
    exact hlt.sublist (List.take_sublist lim _)
  · rw [hlen]
    omega
  · rw [listEventsAfterApi]
    rw [if_neg (by omega)]
    rw [if_neg (by simp only [Bool.or_eq_true, decide_eq_true_eq]; omega)]
  · intro r _
    exact lpad6_length r.id

/-- Witness for C4 at the concrete five-row table: 3 or more newer rows
exist for cursor 2, and the handler returns 2 events with
`has_more = true`. -/
theorem claim_C4_pagination_witness :
    (getEventsAfter gtableW 2 2).length
      = min 2 ((gtableW.filter (fun r => 2 < r.id)).length)
  ∧ listEventsAfterApi gtableW 2 2
      = some ((getEventsAfter gtableW 2 2).map (fun r => lpad6 r.id),
              (getEventsAfter gtableW 2 2).length == 2) :=
  have h := claim_C4_pagination gtableW 2 2 (by decide) (by decide) (by decide)
    (by decide)
  ⟨h.2.1, h.2.2.2.1⟩

end Echo
